import Mathlib

/-!
Verification development for the `psxutils` crate of the `legaia` repository.

The Rust sources are shallowly embedded: byte buffers become `List Nat`
(each element a byte value), machine integers become `Nat` with explicit
masking where overflow or truncation matters, fallible functions return
`Except PsxError`, and `for`/`while` loops become structural recursion on an
explicit fuel argument chosen large enough that it can never run out on the
actual call (fuel-sufficiency is proved where a theorem needs it).
Error message strings carried by the Rust error enum are dropped: every
claim below depends only on success versus failure, never on the message.
-/

namespace Legaia

/-- Error type standing for the crate's `PsxError` (message strings omitted). -/
inductive PsxError where
  | invalidFormat : PsxError
  | parseError : PsxError
deriving DecidableEq, Repr

/-- Read one byte (out-of-range reads default to 0; every in-source read is
bounds-checked before it happens, so the default is never observed). -/
def readU8 (d : List Nat) (i : Nat) : Nat := d.getD i 0

/-- Little-endian `u16` read, as `u16::from_le_bytes`. -/
def readU16 (d : List Nat) (i : Nat) : Nat := readU8 d i + 256 * readU8 d (i + 1)

/-- Little-endian `u32` read, as `u32::from_le_bytes`. -/
def readU32 (d : List Nat) (i : Nat) : Nat := readU16 d i + 65536 * readU16 d (i + 2)

/-- Big-endian `u32` read, as `u32::from_be` applied to a stored field. -/
def readU32BE (d : List Nat) (i : Nat) : Nat :=
  readU8 d (i + 3) + 256 * readU8 d (i + 2) + 65536 * readU8 d (i + 1) +
    16777216 * readU8 d i

/-! ## TIM texture codec (`src/crates/psxutils/src/formats/tim/`) -/

/-- `TIM_MAGIC` from `tim/types.rs`. -/
def TIM_MAGIC : Nat := 0x10

/-- `MAX_TIM_WORD_WIDTH` from `tim/types.rs`. -/
def MAX_TIM_WORD_WIDTH : Nat := 16384

/-- `MAX_TIM_HEIGHT` from `tim/types.rs`. -/
def MAX_TIM_HEIGHT : Nat := 8192

/-- `PixelMode` from `tim/types.rs`. -/
inductive PixelMode where
  | clut4Bit : PixelMode
  | clut8Bit : PixelMode
  | direct16Bit : PixelMode
  | direct24Bit : PixelMode
  | mixed : PixelMode
deriving DecidableEq, Repr

/-- `PixelMode::from_u32` from `tim/types.rs`. -/
def PixelMode.fromU32 (value : Nat) : Except PsxError PixelMode :=
  match value &&& 0x7 with
  | 0 => .ok .clut4Bit
  | 1 => .ok .clut8Bit
  | 2 => .ok .direct16Bit
  | 3 => .ok .direct24Bit
  | 4 => .ok .mixed
  | _ => .error .invalidFormat

/-- `ClutData` from `tim/types.rs` (`data` is the list of `u16` palette words). -/
structure ClutData where
  vramPos : Nat × Nat
  dimensions : Nat × Nat
  data : List Nat
deriving DecidableEq, Repr

/-- `PixelData` from `tim/types.rs` (`data` is the raw pixel byte list). -/
structure PixelData where
  vramPos : Nat × Nat
  dimensions : Nat × Nat
  data : List Nat
deriving DecidableEq, Repr

/-- `Tim` from `tim/types.rs`. -/
structure Tim where
  pixelMode : PixelMode
  hasClut : Bool
  clut : Option ClutData
  pixels : PixelData
deriving DecidableEq, Repr

/-- `TimHeader::has_clut` from `tim/types.rs`: bit 3 of the flags word. -/
def timHasClut (flags : Nat) : Bool := flags &&& 0x08 ≠ 0

/-- `TimHeader::validate_reserved_bits` from `tim/types.rs`: only bits 0-3 may
be set. -/
def timValidateReservedBits (flags : Nat) : Bool := flags &&& 0xFFFFFFF0 = 0

/-- The CLUT words collected by `Tim::parse` from `data[offset..offset+size]`
via `chunks_exact(2)` mapped through `u16::from_le_bytes`. -/
def clutWords (data : List Nat) (offset size : Nat) : List Nat :=
  (List.range (size / 2)).map fun i => readU16 data (offset + 2 * i)

/-- `Tim::parse` from `tim/parse.rs`. -/
def Tim.parse (data : List Nat) : Except PsxError Tim :=
  if data.length < 8 then .error .invalidFormat
  else
    let magic := readU32 data 0
    let flags := readU32 data 4
    if magic ≠ TIM_MAGIC then .error .invalidFormat
    else
      match PixelMode.fromU32 (flags &&& 0x7) with
      | .error e => .error e
      | .ok pixelMode =>
        let hasClut := timHasClut flags
        -- CLUT block, when the flags announce one
        let clutStep : Except PsxError (Option ClutData × Nat) :=
          if hasClut then
            if data.length < 8 + 12 then .error .invalidFormat
            else
              let clutSize := readU32 data 8
              let clutDataSize := clutSize - 12
              if clutDataSize > 256 * 2 then .error .invalidFormat
              else if data.length < 20 + clutDataSize then .error .invalidFormat
              else
                .ok (some { vramPos := (readU16 data 12, readU16 data 14)
                            dimensions := (readU16 data 16, readU16 data 18)
                            data := clutWords data 20 clutDataSize },
                     20 + clutDataSize)
          else .ok (none, 8)
        match clutStep with
        | .error e => .error e
        | .ok (clut, offset) =>
          -- pixel block
          if data.length < offset + 12 then .error .invalidFormat
          else
            let pixelSize := readU32 data offset
            let pixelDataSize := pixelSize - 12
            if pixelDataSize > 10 * 1024 * 1024 then .error .invalidFormat
            else if data.length < offset + 12 + pixelDataSize then .error .invalidFormat
            else
              .ok { pixelMode := pixelMode
                    hasClut := hasClut
                    clut := clut
                    pixels := { vramPos := (readU16 data (offset + 4), readU16 data (offset + 6))
                                dimensions := (readU16 data (offset + 8), readU16 data (offset + 10))
                                data := (data.drop (offset + 12)).take pixelDataSize } }

/-- The CLUT-validation step of `Tim::validate`: checks the CLUT block
headers (size bound, evenness, width/height ranges, data presence) without
reading the data, and returns `(offset to the pixel block, total size so
far)`. -/
def timValidateClut (data : List Nat) : Except PsxError (Nat × Nat) :=
  if timHasClut (readU32 data 4) then
    if data.length < 8 + 12 then .error .invalidFormat
    else if readU32 data 8 - 12 > MAX_TIM_WORD_WIDTH * 2 * MAX_TIM_HEIGHT + 12 ∨
        readU32 data 8 % 2 ≠ 0 then .error .invalidFormat
    else if readU16 data 16 = 0 ∨ readU16 data 16 > MAX_TIM_WORD_WIDTH then .error .invalidFormat
    else if readU16 data 18 = 0 ∨ readU16 data 18 > MAX_TIM_HEIGHT then .error .invalidFormat
    else if data.length < 20 + (readU32 data 8 - 12) then .error .invalidFormat
    else .ok (20 + (readU32 data 8 - 12), 8 + 12 + (readU32 data 8 - 12))
  else .ok (8, 8)

/-- The pixel-validation step of `Tim::validate`: checks the pixel block
headers (width/height ranges, size bound, data presence, size/dimension
consistency) and returns `(display width, height, total size)`. -/
def timValidatePixel (data : List Nat) (offset totalSize : Nat) (pixelMode : PixelMode) :
    Except PsxError (Nat × Nat × Nat) :=
  if data.length < offset + 12 then .error .invalidFormat
  else if readU16 data (offset + 8) = 0 ∨ readU16 data (offset + 8) > MAX_TIM_WORD_WIDTH then
    .error .invalidFormat
  else if readU16 data (offset + 10) = 0 ∨ readU16 data (offset + 10) > MAX_TIM_HEIGHT then
    .error .invalidFormat
  else if readU32 data offset - 12 > MAX_TIM_WORD_WIDTH * 2 * MAX_TIM_HEIGHT + 12 then
    .error .invalidFormat
  else if data.length < offset + 12 + (readU32 data offset - 12) then .error .invalidFormat
  else if readU32 data offset < readU16 data (offset + 8) * 2 * readU16 data (offset + 10) + 12 ∨
      readU32 data offset > readU16 data (offset + 8) * 2 * readU16 data (offset + 10) + 12 + 2 then
    .error .invalidFormat
  else
    .ok (match pixelMode with
         | .clut4Bit => readU16 data (offset + 8) * 4 % 65536
         | .clut8Bit => readU16 data (offset + 8) * 2 % 65536
         | .direct16Bit => readU16 data (offset + 8)
         | .direct24Bit => readU16 data (offset + 8) * 2 / 3
         | .mixed => readU16 data (offset + 8),
         readU16 data (offset + 10), totalSize + 12 + (readU32 data offset - 12))

/-- `Tim::validate` from `tim/parse.rs`: header-only validation returning
`(width, height, total_size)`. -/
def Tim.validate (data : List Nat) : Except PsxError (Nat × Nat × Nat) :=
  if data.length < 8 then .error .invalidFormat
  else if readU32 data 0 ≠ TIM_MAGIC then .error .invalidFormat
  else if ¬ timValidateReservedBits (readU32 data 4) then .error .invalidFormat
  else
    match PixelMode.fromU32 (readU32 data 4 &&& 0x7) with
    | .error e => .error e
    | .ok pixelMode =>
      match timValidateClut data with
      | .error e => .error e
      | .ok (offset, totalSize) => timValidatePixel data offset totalSize pixelMode

/-- `Tim::width` from `tim/parse.rs`.  The Rust function computes in `u16`,
so the indexed-mode multiplications wrap modulo 2^16 (release builds; a
debug build would panic on the same overflow). -/
def Tim.width (t : Tim) : Nat :=
  match t.pixelMode with
  | .clut4Bit => t.pixels.dimensions.1 * 4 % 65536
  | .clut8Bit => t.pixels.dimensions.1 * 2 % 65536
  | _ => t.pixels.dimensions.1

/-- `Tim::height` from `tim/parse.rs`. -/
def Tim.height (t : Tim) : Nat := t.pixels.dimensions.2

/-- `Tim::data_size` from `tim/parse.rs`. -/
def Tim.data_size (t : Tim) : Nat :=
  8 + (match t.clut with
       | some c => 12 + c.data.length * 2
       | none => 0) + 12 + t.pixels.data.length

/-- `rgb555_to_rgba` from `tim/convert.rs`: RGB555 word to `[r, g, b, a]`. -/
def rgb555_to_rgba (color : Nat) : List Nat :=
  let r := (color &&& 0x1F) <<< 3
  let g := ((color >>> 5) &&& 0x1F) <<< 3
  let b := ((color >>> 10) &&& 0x1F) <<< 3
  let a :=
    if r = 0 ∧ g = 0 ∧ b = 0 then
      if color &&& 0x8000 = 0 then 0 else 255
    else
      if color &&& 0x8000 = 0 then 255 else 254
  [r, g, b, a]

/-- `chunks_exact(2)` over a byte list, pairing consecutive bytes. -/
def chunksExact2 : List Nat → List (Nat × Nat)
  | [] => []
  | [_] => []
  | a :: b :: rest => (a, b) :: chunksExact2 rest

/-- `chunks_exact(3)` over a byte list. -/
def chunksExact3 : List Nat → List (Nat × Nat × Nat)
  | a :: b :: c :: rest => (a, b, c) :: chunksExact3 rest
  | _ => []

/-- `Tim::convert_16bit_to_rgba8` from `tim/convert.rs`. -/
def Tim.convert16 (t : Tim) : Except PsxError (List Nat) :=
  .ok ((chunksExact2 t.pixels.data).flatMap fun p => rgb555_to_rgba (p.1 + 256 * p.2))

/-- `Tim::convert_24bit_to_rgba8` from `tim/convert.rs`. -/
def Tim.convert24 (t : Tim) : Except PsxError (List Nat) :=
  .ok ((chunksExact3 t.pixels.data).flatMap fun p => [p.1, p.2.1, p.2.2, 255])

/-- The body of the 4-bit conversion loop: each byte holds two palette
indices (low nibble first); out-of-range indices are silently skipped. -/
def convert4Byte (clut : List Nat) (byte : Nat) : List Nat :=
  let idx1 := byte &&& 0x0F
  let idx2 := (byte >>> 4) &&& 0x0F
  (if idx1 < clut.length then rgb555_to_rgba (clut.getD idx1 0) else []) ++
    (if idx2 < clut.length then rgb555_to_rgba (clut.getD idx2 0) else [])

/-- `Tim::convert_4bit_to_rgba8` from `tim/convert.rs`. -/
def Tim.convert4 (t : Tim) : Except PsxError (List Nat) :=
  match t.clut with
  | none => .error .invalidFormat
  | some c => .ok (t.pixels.data.flatMap (convert4Byte c.data))

/-- `Tim::convert_8bit_to_rgba8` from `tim/convert.rs`. -/
def Tim.convert8 (t : Tim) : Except PsxError (List Nat) :=
  match t.clut with
  | none => .error .invalidFormat
  | some c =>
    .ok (t.pixels.data.flatMap fun idx =>
      if idx < c.data.length then rgb555_to_rgba (c.data.getD idx 0) else [])

/-- `Tim::to_rgba8` from `tim/convert.rs`. -/
def Tim.to_rgba8 (t : Tim) : Except PsxError (List Nat) :=
  match t.pixelMode with
  | .direct16Bit => t.convert16
  | .direct24Bit => t.convert24
  | .clut4Bit => t.convert4
  | .clut8Bit => t.convert8
  | .mixed => .error .invalidFormat

/-! ## Asset scanner (`src/crates/psxutils/src/scanner.rs`) -/

/-- `AssetType` from `scanner.rs` (only the TIM arm is reachable: the TMD and
VAG scans are disabled in `AssetScanner::scan`). -/
inductive AssetType where
  | tim (width height : Nat) : AssetType
  | tmd (objectCount : Nat) : AssetType
  | vag : AssetType
deriving DecidableEq, Repr

/-- `DiscoveredAsset` from `scanner.rs`. -/
structure DiscoveredAsset where
  offset : Nat
  size : Nat
  assetType : AssetType
deriving DecidableEq, Repr

/-- The loop body of `AssetScanner::scan_tim`, with an explicit fuel
parameter (one unit per loop iteration; the offset strictly increases each
iteration, so `data.length + 1` units always suffice). -/
def scanTimLoop (data : List Nat) (minSize : Nat) : Nat → Nat → List DiscoveredAsset
  | 0, _ => []
  | fuel + 1, offset =>
    if offset + 12 ≤ data.length then
      if readU32 data offset = TIM_MAGIC then
        match Tim.validate (data.drop offset) with
        | .ok (w, h, size) =>
          if minSize ≤ size then
            ⟨offset, size, .tim w h⟩ :: scanTimLoop data minSize fuel (offset + size)
          else scanTimLoop data minSize fuel (offset + 1)
        | .error _ => scanTimLoop data minSize fuel (offset + 1)
      else scanTimLoop data minSize fuel (offset + 1)
    else []

/-- `AssetScanner::scan_tim` from `scanner.rs`. -/
def scanTim (data : List Nat) (minSize : Nat) : List DiscoveredAsset :=
  scanTimLoop data minSize (data.length + 1) 0

/-- `AssetScanner::scan` from `scanner.rs`: the TIM scan (TMD/VAG scans are
commented out in the source) followed by `sort_by_key(|a| a.offset)`. -/
def scan (data : List Nat) (minSize : Nat) : List DiscoveredAsset :=
  (scanTim data minSize).mergeSort fun a b => a.offset ≤ b.offset

/-! ## LZSS decompression (`src/crates/psxutils/src/formats/lzss.rs`) -/

/-- `LzssDecoder` state: the sliding window plus the circular write cursor.
The standard configuration (`LzssConfig::standard()`) is fixed: window size
4096, minimum match length 3. -/
structure LzssState where
  window : List Nat
  windowPos : Nat
deriving DecidableEq, Repr

/-- `LzssDecoder::new(LzssConfig::standard())`. -/
def LzssState.initial : LzssState := ⟨List.replicate 4096 0, 0⟩

/-- `LzssDecoder::write_to_window`. -/
def LzssState.write (st : LzssState) (byte : Nat) : LzssState :=
  ⟨st.window.set st.windowPos byte, (st.windowPos + 1) % 4096⟩

/-- The back-reference copy loop of `LzssDecoder::decompress`: `length` times,
read `window[offset]` (the source index never moves) and append the byte at
the write cursor.  Returns the emitted bytes and the updated state. -/
def refCopy (st : LzssState) (offset : Nat) : Nat → List Nat × LzssState
  | 0 => ([], st)
  | n + 1 =>
    let byte := st.window.getD offset 0
    let next := refCopy (st.write byte) offset n
    (byte :: next.1, next.2)

/-- The main loop of `LzssDecoder::decompress`, fuelled (each iteration
consumes at least one input byte, so `input.length + 1` units suffice).
`flags`/`flagCount` mirror the control-byte state; end of input at a
control-byte read breaks with success, end of input inside a token is an
I/O error (`read_exact` failing with `UnexpectedEof`). -/
def lzssLoop : Nat → List Nat → Nat → Nat → LzssState → Except PsxError (List Nat)
  | 0, _, _, _, _ => .ok []
  | fuel + 1, input, flags, flagCount, st =>
    if flagCount = 0 then
      match input with
      | [] => .ok []
      | c :: rest => lzssLoop fuel rest c 8 st
    else
      if flags &&& 1 ≠ 0 then
        match input with
        | [] => .error .parseError
        | b :: rest =>
          (lzssLoop fuel rest (flags >>> 1) (flagCount - 1) (st.write b)).map (b :: ·)
      else
        match input with
        | b0 :: b1 :: rest =>
          let offset := (b0 <<< 4) ||| (b1 >>> 4)
          let (out, st') := refCopy st offset ((b1 &&& 0x0F) + 3)
          (lzssLoop fuel rest (flags >>> 1) (flagCount - 1) st').map (out ++ ·)
        | _ => .error .parseError

/-- `lzss::decompress` from `lzss.rs`: one-shot decompression with the
standard configuration and a fresh decoder. -/
def lzssDecompress (input : List Nat) : Except PsxError (List Nat) :=
  lzssLoop (input.length + 1) input 0 0 LzssState.initial

/-! ## VAG audio codec (`src/crates/psxutils/src/formats/vag.rs`) -/

/-- `VAG_MAGIC`: the bytes of `"VAGp"`. -/
def VAG_MAGIC : List Nat := [0x56, 0x41, 0x47, 0x70]

/-- `Vag` from `vag.rs` (the `name` is kept as its raw bytes; the Rust code
turns the same bytes into a `String`). -/
structure Vag where
  name : List Nat
  sampleRate : Nat
  data : List Nat
  loopStart : Option Nat
  loopEnd : Option Nat
deriving DecidableEq, Repr

/-- The loop of `Vag::find_loop_points`, fuelled (each iteration drops one
16-byte chunk, so `data.length + 1` units always suffice).  A chunk shorter
than 2 bytes breaks the scan; flag byte `0x02` records a loop start,
`0x03` a loop end, `0x06` both (the end one block later). -/
def findLoopPointsLoop :
    Nat → List Nat → Nat → Option Nat → Option Nat → Option Nat × Option Nat
  | 0, _, _, ls, le => (ls, le)
  | fuel + 1, data, blockIdx, ls, le =>
    if data.length < 2 then (ls, le)
    else
      let flags := data.getD 1 0
      let samplePos := blockIdx * 28
      match flags with
      | 2 => findLoopPointsLoop fuel (data.drop 16) (blockIdx + 1) (some samplePos) le
      | 3 => findLoopPointsLoop fuel (data.drop 16) (blockIdx + 1) ls (some samplePos)
      | 6 => findLoopPointsLoop fuel (data.drop 16) (blockIdx + 1) (some samplePos)
            (some (samplePos + 28))
      | _ => findLoopPointsLoop fuel (data.drop 16) (blockIdx + 1) ls le

/-- `Vag::find_loop_points` from `vag.rs`. -/
def findLoopPoints (data : List Nat) : Option Nat × Option Nat :=
  findLoopPointsLoop (data.length + 1) data 0 none none

/-- `Vag::parse` from `vag.rs`.  The version field is only warned about, the
`size` and `rate` header fields are big-endian, the audio payload is
`data[48 .. 48 + min(size, len - 48)]`, and the loop points come solely from
scanning that payload. -/
def Vag.parse (data : List Nat) : Except PsxError Vag :=
  if data.length < 48 then .error .invalidFormat
  else if data.take 4 ≠ VAG_MAGIC then .error .invalidFormat
  else
    let size := readU32BE data 12
    let sampleRate := readU32BE data 16
    let name := ((data.drop 32).take 16).takeWhile (· ≠ 0)
    let audio := (data.drop 48).take (min size (data.length - 48))
    let lp := findLoopPoints audio
    .ok { name := name, sampleRate := sampleRate, data := audio,
          loopStart := lp.1, loopEnd := lp.2 }

/-! ## DAT archive codec (`src/crates/psxutils/src/formats/dat.rs`) -/

/-- `SECTOR_SIZE` from `dat.rs`. -/
def SECTOR_SIZE : Nat := 2048

/-- `DatEntry` from `dat.rs`. -/
structure DatEntry where
  start_sector : Nat
  end_sector : Nat
deriving DecidableEq, Repr

/-- `DatEntry::byte_offset`. -/
def DatEntry.byte_offset (e : DatEntry) : Nat := e.start_sector * SECTOR_SIZE

/-- `DatEntry::byte_size`. -/
def DatEntry.byte_size (e : DatEntry) : Nat :=
  if e.start_sector < e.end_sector then (e.end_sector - e.start_sector) * SECTOR_SIZE else 0

/-- A parsed `DatArchive` (the borrowed `data` field is dropped: no claim
needs it). -/
structure DatArchive where
  entries : List DatEntry
  tableSize : Nat
deriving DecidableEq, Repr

/-- The table-reading loop of `DatArchive::parse`, fuelled (each iteration
advances `offset` by 8, so `data.length / 8 + 1` units suffice).
Returns `(entries, tableSizeSentinel, finalOffset)`: the sentinel is `0`
unless one of the two `break`s assigned `table_size = offset`, mirroring the
Rust local that starts at 0.  `count` is `entries.len()` so far. -/
def datLoop (data : List Nat) :
    Nat → Nat → Nat → Except PsxError (List DatEntry × Nat × Nat)
  | 0, offset, _ => .ok ([], 0, offset)
  | fuel + 1, offset, count =>
    if offset + 8 > data.length then .ok ([], 0, offset)
    else
      let e : DatEntry := ⟨readU32 data offset, readU32 data (offset + 4)⟩
      if e.byte_offset + e.byte_size > data.length * 2 then .ok ([], offset, offset)
      else if 0 < count ∧ e.start_sector = 0 ∧ e.end_sector = 0 then .ok ([], offset, offset)
      else if count + 1 > 10000 then .error .parseError
      else
        match datLoop data fuel (offset + 8) (count + 1) with
        | .error er => .error er
        | .ok (es, ts, fo) => .ok (e :: es, ts, fo)

/-- `DatArchive::parse` from `dat.rs`. -/
def DatArchive.parse (data : List Nat) : Except PsxError DatArchive :=
  if data.length < 16 then .error .parseError
  else
    match datLoop data (data.length / 8 + 1) 0 0 with
    | .error e => .error e
    | .ok (entries, ts, fo) =>
      if entries.isEmpty then .error .parseError
      else .ok ⟨entries, if ts = 0 then fo else ts⟩

/-! ## XA sub-header codec (`src/crates/psxutils/src/formats/xa.rs`) -/

/-- `SubMode` from `xa.rs`. -/
structure SubMode where
  bits : Nat
deriving DecidableEq, Repr

/-- `count_ones` of a byte value. -/
def countOnes8 (n : Nat) : Nat := ((List.range 8).filter fun i => n.testBit i).length

namespace SubMode

def is_end_of_file (m : SubMode) : Bool := m.bits &&& 0x80 ≠ 0
def is_real_time (m : SubMode) : Bool := m.bits &&& 0x40 ≠ 0
def is_form2 (m : SubMode) : Bool := m.bits &&& 0x20 ≠ 0
def is_trigger (m : SubMode) : Bool := m.bits &&& 0x10 ≠ 0
def is_data (m : SubMode) : Bool := m.bits &&& 0x08 ≠ 0
def is_audio (m : SubMode) : Bool := m.bits &&& 0x04 ≠ 0
def is_video (m : SubMode) : Bool := m.bits &&& 0x02 ≠ 0
def is_end_of_record (m : SubMode) : Bool := m.bits &&& 0x01 ≠ 0

/-- `SubMode::is_valid`: at most one of the Data/Audio/Video bits set. -/
def is_valid (m : SubMode) : Bool := countOnes8 ((m.bits >>> 1) &&& 0x07) ≤ 1

end SubMode

/-- `CodingInfo` from `xa.rs`. -/
structure CodingInfo where
  bits : Nat
deriving DecidableEq, Repr

/-- `CodingInfo::is_valid`: reserved bits 5, 3, 1 (`MASK_RESERVED = 0x2A`)
must be zero. -/
def CodingInfo.is_valid (c : CodingInfo) : Bool := c.bits &&& 0x2A = 0

/-- `XaSubHeader` from `xa.rs`. -/
structure XaSubHeader where
  file_number : Nat
  channel : Nat
  sub_mode : SubMode
  coding_info : CodingInfo
deriving DecidableEq, Repr

/-- `XaSubHeader::parse` from `xa.rs`. -/
def XaSubHeader.parse (data : List Nat) : Option XaSubHeader :=
  if data.length < 8 then none
  else
    let fileNumber1 := readU8 data 0
    let fileNumber2 := readU8 data 4
    let channel1 := readU8 data 1
    let channel2 := readU8 data 5
    let subMode1 : SubMode := ⟨readU8 data 2⟩
    let subMode2 : SubMode := ⟨readU8 data 6⟩
    let codingInfo1 : CodingInfo := ⟨readU8 data 3⟩
    let codingInfo2 : CodingInfo := ⟨readU8 data 7⟩
    if fileNumber1 ≠ fileNumber2 ∨ channel1 ≠ channel2 ∨
        subMode1.bits ≠ subMode2.bits ∨ codingInfo1.bits ≠ codingInfo2.bits then none
    else if ¬ (subMode1.is_valid ∧ codingInfo1.is_valid) then none
    else some ⟨fileNumber1, channel1, subMode1, codingInfo1⟩

/-- `XaSubHeader::is_audio` from `xa.rs`. -/
def XaSubHeader.is_audio (h : XaSubHeader) : Bool :=
  h.sub_mode.is_form2 ∧ h.sub_mode.is_audio ∧ h.sub_mode.is_real_time ∧
    ¬ h.sub_mode.is_data ∧ ¬ h.sub_mode.is_video

/-! ## TMD model codec (`src/crates/psxutils/src/formats/tmd.rs`) -/

/-- `TMD_MAGIC` from `tmd.rs`. -/
def TMD_MAGIC : Nat := 0x41

/-- Interpret a `u16` bit pattern as the signed `i16` it encodes. -/
def toI16 (n : Nat) : Int := if n < 32768 then (n : Int) else (n : Int) - 65536

/-- Interpret a `u32` bit pattern as the signed `i32` it encodes. -/
def toI32 (n : Nat) : Int := if n < 2147483648 then (n : Int) else (n : Int) - 4294967296

/-- `TmdVertex` from `tmd.rs`. -/
structure TmdVertex where
  x : Int
  y : Int
  z : Int
deriving DecidableEq, Repr

/-- `TmdNormal` from `tmd.rs`. -/
structure TmdNormal where
  nx : Int
  ny : Int
  nz : Int
deriving DecidableEq, Repr

/-- `TextureInfo` from `tmd.rs`. -/
structure TextureInfo where
  clut_x : Nat
  clut_y : Nat
  tpage : Nat
deriving DecidableEq, Repr

/-- `TmdPrimitive` from `tmd.rs` (vertex/normal index arrays become lists;
`colors` is carried even though the parser always leaves it `none`). -/
inductive TmdPrimitive where
  | triangle (vertices : List Nat) (normals : Option (List Nat))
      (uvs : Option (List (Nat × Nat))) (colors : Option (List (Nat × Nat × Nat)))
      (textureInfo : Option TextureInfo) : TmdPrimitive
  | quad (vertices : List Nat) (normals : Option (List Nat))
      (uvs : Option (List (Nat × Nat))) (colors : Option (List (Nat × Nat × Nat)))
      (textureInfo : Option TextureInfo) : TmdPrimitive
deriving DecidableEq, Repr

/-- `TmdObject` from `tmd.rs`. -/
structure TmdObject where
  vertices : List TmdVertex
  normals : List TmdNormal
  primitives : List TmdPrimitive
  scale : Int
deriving DecidableEq, Repr

/-- `Tmd` from `tmd.rs`. -/
structure Tmd where
  flags : Nat
  objects : List TmdObject
deriving DecidableEq, Repr

/-- `Tmd::parse_triangle` from `tmd.rs`. -/
def parseTriangle (data : List Nat) (pos : Nat) (isTextured isGouraud : Bool) :
    Except PsxError TmdPrimitive :=
  let normStep : Except PsxError (List Nat × Nat) :=
    if isGouraud then
      if pos + 6 > data.length then .error .parseError
      else .ok ([readU16 data pos, readU16 data (pos + 2), readU16 data (pos + 4)], pos + 6)
    else
      if pos + 2 > data.length then .error .parseError
      else
        let n := readU16 data pos
        .ok ([n, n, n], pos + 2)
  match normStep with
  | .error e => .error e
  | .ok (normals, pos) =>
    if pos + 6 > data.length then .error .parseError
    else
      let v0 := readU16 data pos
      let v1 := readU16 data (pos + 2)
      let v2 := readU16 data (pos + 4)
      let pos := pos + 6
      if isTextured then
        if pos + 12 > data.length then .error .parseError
        else
          let uvs := [(readU8 data pos, readU8 data (pos + 1)),
                      (readU8 data (pos + 6), readU8 data (pos + 7)),
                      (readU8 data (pos + 10), readU8 data (pos + 11))]
          let ti : TextureInfo := ⟨readU16 data (pos + 2), readU16 data (pos + 4),
                                   readU16 data (pos + 8)⟩
          .ok (.triangle [v0, v1, v2] (some normals) (some uvs) none (some ti))
      else
        .ok (.triangle [v0, v1, v2] (some normals) none none none)

/-- `Tmd::parse_quad` from `tmd.rs`. -/
def parseQuad (data : List Nat) (pos : Nat) (isTextured isGouraud : Bool) :
    Except PsxError TmdPrimitive :=
  let normStep : Except PsxError (List Nat × Nat) :=
    if isGouraud then
      if pos + 8 > data.length then .error .parseError
      else .ok ([readU16 data pos, readU16 data (pos + 2), readU16 data (pos + 4),
                 readU16 data (pos + 6)], pos + 8)
    else
      if pos + 2 > data.length then .error .parseError
      else
        let n := readU16 data pos
        .ok ([n, n, n, n], pos + 2)
  match normStep with
  | .error e => .error e
  | .ok (normals, pos) =>
    if pos + 8 > data.length then .error .parseError
    else
      let v0 := readU16 data pos
      let v1 := readU16 data (pos + 2)
      let v2 := readU16 data (pos + 4)
      let v3 := readU16 data (pos + 6)
      let pos := pos + 8
      if isTextured then
        if pos + 16 > data.length then .error .parseError
        else
          let uvs := [(readU8 data pos, readU8 data (pos + 1)),
                      (readU8 data (pos + 6), readU8 data (pos + 7)),
                      (readU8 data (pos + 10), readU8 data (pos + 11)),
                      (readU8 data (pos + 14), readU8 data (pos + 15))]
          let ti : TextureInfo := ⟨readU16 data (pos + 2), readU16 data (pos + 4),
                                   readU16 data (pos + 8)⟩
          .ok (.quad [v0, v1, v2, v3] (some normals) (some uvs) none (some ti))
      else
        .ok (.quad [v0, v1, v2, v3] (some normals) none none none)

/-- `Tmd::parse_primitive` from `tmd.rs`. -/
def parsePrimitive (data : List Nat) (offset : Nat) : Except PsxError TmdPrimitive :=
  if offset + 4 > data.length then .error .parseError
  else
    let mode := readU8 data (offset + 3)
    let isQuad := mode &&& 0x08 ≠ 0
    let isTextured := mode &&& 0x04 ≠ 0
    let isGouraud := mode &&& 0x10 ≠ 0
    if isQuad then parseQuad data (offset + 4) isTextured isGouraud
    else parseTriangle data (offset + 4) isTextured isGouraud

/-- `Tmd::primitive_packet_size` from `tmd.rs`: `olen * 4` bytes. -/
def primPacketSize (data : List Nat) (offset : Nat) : Except PsxError Nat :=
  if offset ≥ data.length then .error .parseError
  else .ok (readU8 data offset * 4)

/-- The primitive-reading loop of `Tmd::parse_object` (structural recursion
on the remaining `prim_count`; reaching the end of the data breaks with the
primitives collected so far). -/
def primLoop (data : List Nat) : Nat → Nat → Except PsxError (List TmdPrimitive)
  | 0, _ => .ok []
  | count + 1, pos =>
    if pos ≥ data.length then .ok []
    else if pos + 4 > data.length then .ok []
    else
      match parsePrimitive data pos with
      | .error e => .error e
      | .ok prim =>
        match primPacketSize data pos with
        | .error e => .error e
        | .ok sz => (primLoop data count (pos + sz)).map (prim :: ·)

/-- The vertex-reading loop of `Tmd::parse_object`: record `i` (of the
remaining `rem`) lives at `base + i * 8` and must fit in the buffer. -/
def readVertices (data : List Nat) (base : Nat) (i : Nat) :
    Nat → Except PsxError (List TmdVertex)
  | 0 => .ok []
  | rem + 1 =>
    let voffset := base + i * 8
    if voffset + 8 > data.length then .error .parseError
    else
      (readVertices data base (i + 1) rem).map
        (⟨toI16 (readU16 data voffset), toI16 (readU16 data (voffset + 2)),
          toI16 (readU16 data (voffset + 4))⟩ :: ·)

/-- The normal-reading loop of `Tmd::parse_object`. -/
def readNormals (data : List Nat) (base : Nat) (i : Nat) :
    Nat → Except PsxError (List TmdNormal)
  | 0 => .ok []
  | rem + 1 =>
    let noffset := base + i * 8
    if noffset + 8 > data.length then .error .parseError
    else
      (readNormals data base (i + 1) rem).map
        (⟨toI16 (readU16 data noffset), toI16 (readU16 data (noffset + 2)),
          toI16 (readU16 data (noffset + 4))⟩ :: ·)

/-- `Tmd::parse_object` from `tmd.rs`.  The Rust code first slices the
28-byte table entry and indexes into the slice; here the same bytes are read
at absolute offsets `entryOff + k` (the caller has checked
`entryOff + 28 ≤ data.length`). -/
def parseObject (data : List Nat) (entryOff : Nat) : Except PsxError TmdObject :=
  let vertOffset := readU32 data entryOff
  let vertCount := readU32 data (entryOff + 4)
  let normalOffset := readU32 data (entryOff + 8)
  let normalCount := readU32 data (entryOff + 12)
  let primOffset := readU32 data (entryOff + 16)
  let primCount := readU32 data (entryOff + 20)
  let scale := toI32 (readU32 data (entryOff + 24))
  if vertCount > 100000 then .error .parseError
  else if normalCount > 100000 then .error .parseError
  else
    match readVertices data vertOffset 0 vertCount with
    | .error e => .error e
    | .ok vertices =>
      match readNormals data normalOffset 0 normalCount with
      | .error e => .error e
      | .ok normals =>
        match primLoop data primCount primOffset with
        | .error e => .error e
        | .ok primitives => .ok ⟨vertices, normals, primitives, scale⟩

/-- The object-table loop of `Tmd::parse_standard_tmd`: object `i` (of the
remaining `rem`) has its 28-byte table entry at `12 + i * 28`. -/
def parseObjects (data : List Nat) (i : Nat) : Nat → Except PsxError (List TmdObject)
  | 0 => .ok []
  | rem + 1 =>
    let objOffset := 12 + i * 28
    if objOffset + 28 > data.length then .error .parseError
    else
      match parseObject data objOffset with
      | .error e => .error e
      | .ok o => (parseObjects data (i + 1) rem).map (o :: ·)

/-- `Tmd::parse` (including `parse_standard_tmd`) from `tmd.rs`. -/
def Tmd.parse (data : List Nat) : Except PsxError Tmd :=
  if data.length < 12 then .error .parseError
  else if readU32 data 0 ≠ TMD_MAGIC then .error .parseError
  else
    let flags := readU32 data 4
    let numObjects := readU32 data 8
    if numObjects = 0 then .error .parseError
    else if numObjects > 1000 then .error .parseError
    else (parseObjects data 0 numObjects).map fun objs => ⟨flags, objs⟩

/-! ## Concrete inputs used by counterexamples and witnesses -/

/-- A 20-byte 16-bit TIM with a pixel width field of 0: `Tim::parse` accepts
it (it never looks at the width), `Tim::validate` rejects it. -/
def c2bytes : List Nat := [16,0,0,0, 2,0,0,0, 12,0,0,0, 0,0,0,0, 0,0,1,0]

/-- A minimal fully valid 16-bit TIM: one 1×1 pixel word `0xBBAA`,
22 bytes total. -/
def timGoodBytes : List Nat := [16,0,0,0, 2,0,0,0, 14,0,0,0, 0,0,0,0, 1,0,1,0, 170,187]

/-- The `Tim` value that `Tim.parse timGoodBytes` produces. -/
def timW : Tim := ⟨.direct16Bit, false, none, ⟨(0,0), (1,1), [170,187]⟩⟩

/-- A 26-byte 24-bit TIM (3 words × 1 row = 2 whole RGB pixels) accepted by
both `Tim::parse` and `Tim::validate`. -/
def c3bytes : List Nat := [16,0,0,0, 3,0,0,0, 18,0,0,0, 0,0,0,0, 3,0,1,0, 1,2,3,4,5,6]

/-- An 80-byte VAG sample: 48-byte header (declared data size 32) followed by
two 16-byte ADPCM blocks whose flag bytes are both `0x02` (loop start). -/
def c4bytes : List Nat :=
  [0x56,0x41,0x47,0x70] ++ List.replicate 8 0 ++ [0,0,0,32] ++ [0,0,0xAC,0x44] ++
    List.replicate 28 0 ++ ([0,2] ++ List.replicate 14 0) ++ ([0,2] ++ List.replicate 14 0)

/-- A 64-byte VAG sample with a single block whose flag byte is `0x03`
(loop end). -/
def c4goodBytes : List Nat :=
  [0x56,0x41,0x47,0x70] ++ List.replicate 8 0 ++ [0,0,0,16] ++ [0,0,0xAC,0x44] ++
    List.replicate 28 0 ++ ([0,3] ++ List.replicate 14 0)

/-- The `Vag` value that `Vag.parse c4goodBytes` produces. -/
def vagW : Vag := ⟨[], 44100, [0,3] ++ List.replicate 14 0, none, some 0⟩

/-- A 16-byte DAT table whose first pair is `(0, 0xFFFFFFFF)`: its byte range
exceeds double the input length, so the corruption guard fires before any
entry is collected. -/
def c5bad : List Nat := [0,0,0,0, 255,255,255,255, 0,0,0,0, 0,0,0,0]

/-- 16 zero bytes: one all-zero first entry followed by the all-zero
terminator pair. -/
def c5good : List Nat := List.replicate 16 0

/-- The `DatArchive` value that `DatArchive.parse c5good` produces. -/
def datW : DatArchive := ⟨[⟨0, 0⟩], 8⟩

/-- A 12-byte TMD header with magic `0x41` and an object count of zero. -/
def tmdA : List Nat := [65,0,0,0] ++ List.replicate 8 0

/-- A 48-byte TMD: one object with one vertex at offset 40 and no normals or
primitives. -/
def tmdB : List Nat := [65,0,0,0, 0,0,0,0, 1,0,0,0]
  ++ [40,0,0,0, 1,0,0,0, 0,0,0,0, 0,0,0,0, 0,0,0,0, 0,0,0,0, 0,0,0,0]
  ++ [1,0, 2,0, 3,0, 0,0]

/-! ## Claim-side predicates and functions (phrased after the spec text) -/

/-- The alpha rule of `rgb555_to_rgba`, stated over the decoded output: the
decoded alpha is 0 exactly for decoded black with the high bit clear, 255
exactly for non-black with the bit clear or black with the bit set, and 254
exactly for non-black with the bit set. -/
def alphaCharacterization (c : Nat) : Prop :=
  ((rgb555_to_rgba c).getD 3 0 = 0 ↔
    ((rgb555_to_rgba c).getD 0 0 = 0 ∧ (rgb555_to_rgba c).getD 1 0 = 0 ∧
      (rgb555_to_rgba c).getD 2 0 = 0 ∧ c &&& 0x8000 = 0)) ∧
  ((rgb555_to_rgba c).getD 3 0 = 255 ↔
    ((¬ ((rgb555_to_rgba c).getD 0 0 = 0 ∧ (rgb555_to_rgba c).getD 1 0 = 0 ∧
        (rgb555_to_rgba c).getD 2 0 = 0) ∧ c &&& 0x8000 = 0) ∨
     (((rgb555_to_rgba c).getD 0 0 = 0 ∧ (rgb555_to_rgba c).getD 1 0 = 0 ∧
        (rgb555_to_rgba c).getD 2 0 = 0) ∧ c &&& 0x8000 ≠ 0))) ∧
  ((rgb555_to_rgba c).getD 3 0 = 254 ↔
    (¬ ((rgb555_to_rgba c).getD 0 0 = 0 ∧ (rgb555_to_rgba c).getD 1 0 = 0 ∧
        (rgb555_to_rgba c).getD 2 0 = 0) ∧ c &&& 0x8000 ≠ 0))

/-- The spec's acceptance conditions for an XA sub-header region: at least 8
bytes, the two 4-byte halves byte-identical, at most one of the
data (bit 3) / audio (bit 2) / video (bit 1) sub-mode bits set, and the
coding-info reserved bits 5, 3, 1 all clear. -/
def xaParseConditions (d : List Nat) : Prop :=
  8 ≤ d.length ∧
  (readU8 d 0 = readU8 d 4 ∧ readU8 d 1 = readU8 d 5 ∧
    readU8 d 2 = readU8 d 6 ∧ readU8 d 3 = readU8 d 7) ∧
  (¬ ((readU8 d 2).testBit 3 = true ∧ (readU8 d 2).testBit 2 = true) ∧
   ¬ ((readU8 d 2).testBit 3 = true ∧ (readU8 d 2).testBit 1 = true) ∧
   ¬ ((readU8 d 2).testBit 2 = true ∧ (readU8 d 2).testBit 1 = true)) ∧
  ((readU8 d 3).testBit 1 = false ∧ (readU8 d 3).testBit 3 = false ∧
    (readU8 d 3).testBit 5 = false)

/-- The spec's "is audio" condition: Form-2 (bit 5), audio (bit 2) and
real-time (bit 6) sub-mode bits set, data (bit 3) and video (bit 1) clear. -/
def xaAudioConditions (h : XaSubHeader) : Prop :=
  h.sub_mode.bits.testBit 5 = true ∧ h.sub_mode.bits.testBit 2 = true ∧
  h.sub_mode.bits.testBit 6 = true ∧ h.sub_mode.bits.testBit 3 = false ∧
  h.sub_mode.bits.testBit 1 = false

/-- Two discovered assets have non-overlapping byte ranges
`[offset, offset + size)`. -/
def disjointAssets (a b : DiscoveredAsset) : Prop :=
  a.offset + a.size ≤ b.offset ∨ b.offset + b.size ≤ a.offset

/-- Where a TIM input's pixel block starts according to its headers: after
the 8-byte file header and, when the flags announce a CLUT, after the
12-byte CLUT header plus the CLUT's declared data bytes. -/
def timPixelOffset (data : List Nat) : Nat :=
  if timHasClut (readU32 data 4) then 20 + (readU32 data 8 - 12) else 8

/-- The total byte count that a TIM input's headers declare: the 8-byte file
header, then (when the flags announce a CLUT) the 12-byte CLUT header plus
its declared data bytes, then the 12-byte pixel header plus its declared
data bytes.  `Tim::parse` succeeds only when the buffer holds this many
bytes. -/
def timNeededSize (data : List Nat) : Nat :=
  timPixelOffset data + 12 + (readU32 data (timPixelOffset data) - 12)

/-- The sequence of `(block index, flag byte)` pairs that the VAG loop scan
visits: one per 16-byte chunk, stopping at a trailing chunk shorter than
2 bytes (fuelled like `findLoopPointsLoop`). -/
def vagBlockFlags : Nat → List Nat → Nat → List (Nat × Nat)
  | 0, _, _ => []
  | fuel + 1, data, idx =>
    if data.length < 2 then []
    else (idx, data.getD 1 0) :: vagBlockFlags fuel (data.drop 16) (idx + 1)

/-- The `(block index, flag byte)` pairs of an ADPCM data region. -/
def vagBlocks (data : List Nat) : List (Nat × Nat) := vagBlockFlags (data.length + 1) data 0

/-- Spec wording: the sample position `block_index × 28` of the **last**
block whose flag is a loop-start (`0x02`) or loop-start-and-end (`0x06`)
code. -/
def lastStartPoint (bl : List (Nat × Nat)) : Option Nat :=
  (bl.reverse.find? fun p => p.2 = 2 ∨ p.2 = 6).map fun p => p.1 * 28

/-- Spec wording: the loop end derived from the **last** block whose flag is
a loop-end (`0x03`) or loop-start-and-end (`0x06`) code — `block_index × 28`
for `0x03`, one block later for `0x06`. -/
def lastEndPoint (bl : List (Nat × Nat)) : Option Nat :=
  (bl.reverse.find? fun p => p.2 = 3 ∨ p.2 = 6).map fun p =>
    if p.2 = 6 then p.1 * 28 + 28 else p.1 * 28

/-- The claim's wording for the loop start: the sample position of the
**first** occurrence of a loop-start code. -/
def firstStartPoint (bl : List (Nat × Nat)) : Option Nat :=
  (bl.find? fun p => p.2 = 2 ∨ p.2 = 6).map fun p => p.1 * 28

/-- The 8-byte little-endian `(start_sector, end_sector)` pair stored at a
given byte offset of a DAT table. -/
def datPair (data : List Nat) (offset : Nat) : DatEntry :=
  ⟨readU32 data offset, readU32 data (offset + 4)⟩

end Legaia

namespace Legaia

/-! ## Theorems -/

/-- **C1, counterexample.**  The claim says one single fixed semi-transparent
alpha is used whenever the high bit is set, including for black; but the code
decodes `0x8000` (black, high bit set) to alpha 255 (fully opaque) while
`0x8001` (non-black, high bit set) gets the semi-transparent alpha 254. -/
theorem c1_counterexample :
    rgb555_to_rgba 0x8000 = [0, 0, 0, 255] ∧
    rgb555_to_rgba 0x8001 = [8, 0, 0, 254] ∧ (255 : Nat) ≠ 254 := by
  decide

/-- **C1, amended.**  For every 16-bit color word, the decoded alpha is 0
exactly when the decoded color is black with the high bit clear; 255 exactly
when the color is non-black with the bit clear, or black with the bit set;
and 254 exactly when the color is non-black with the bit set. -/
theorem c1_alpha_rule (c : Nat) (hc : c < 65536) : alphaCharacterization c := by
  unfold alphaCharacterization
  simp only [rgb555_to_rgba, List.getD_cons_zero, List.getD_cons_succ]
  by_cases hb : (c &&& 0x1F) <<< 3 = 0 ∧ ((c >>> 5) &&& 0x1F) <<< 3 = 0 ∧
      ((c >>> 10) &&& 0x1F) <<< 3 = 0 <;>
    by_cases hs : c &&& 0x8000 = 0 <;>
      simp [hb, hs]

/-- **C1, witness** for the amended theorem at the color word `0xBBAA`. -/
theorem c1_witness : 0xBBAA < 65536 ∧ alphaCharacterization 0xBBAA :=
  ⟨by decide, c1_alpha_rule 0xBBAA (by decide)⟩

/-- Writing the byte just read from window cell `o` back anywhere in the
window leaves the value of cell `o` unchanged. -/
theorem set_getD_self (l : List Nat) (p o : Nat) :
    (l.set p (l.getD o 0)).getD o 0 = l.getD o 0 := by
  rcases eq_or_ne p o with h | h
  · subst h
    rcases Nat.lt_or_ge p l.length with hl | hl
    · simp [List.getD_eq_getElem?_getD, List.getElem?_set, hl]
    · rw [List.set_eq_of_length_le hl]
  · simp [List.getD_eq_getElem?_getD, List.getElem?_set, h]

/-- The bytes emitted by a back-reference copy are all reads of the one
window cell `o`, whose value never changes during the copy. -/
theorem refCopy_fst_replicate :
    ∀ (n : Nat) (st : LzssState) (o : Nat),
      (refCopy st o n).1 = List.replicate n (st.window.getD o 0)
  | 0, _, _ => rfl
  | n + 1, st, o => by
    simp only [refCopy]
    rw [refCopy_fst_replicate n]
    simp only [LzssState.write]
    rw [set_getD_self]
    exact (List.replicate_succ _ _).symm

/-- **C9.**  A stream of one control byte `0xFF` (eight literal flags)
followed by any 8 bytes decompresses to exactly those 8 bytes. -/
theorem c9_literal_roundtrip (b0 b1 b2 b3 b4 b5 b6 b7 : Nat) :
    lzssDecompress [0xFF, b0, b1, b2, b3, b4, b5, b6, b7] =
      .ok [b0, b1, b2, b3, b4, b5, b6, b7] := rfl

/-- **C10.**  A back-reference with offset `o` and length `L` reads the single
window cell `o` for every output byte (the source index never advances), so
its output is `L` copies of that cell's value — including after the write
cursor passes through `o`, when the "newly written value" it reflects is that
same value.  Consequently the output need not be a contiguous run of the
prior window: decompressing literal `65` followed by a back-reference
`(offset 0, length 3)` emits `[65, 65, 65]`, not the contiguous prior window
run `[65, 0, 0]` at offset 0. -/
theorem c10_backreference_semantics :
    (∀ (st : LzssState) (o n : Nat),
        (refCopy st o n).1 = List.replicate n (st.window.getD o 0)) ∧
    lzssDecompress [253, 65, 0, 0, 9, 9, 9, 9, 9, 9] =
      .ok [65, 65, 65, 65, 9, 9, 9, 9, 9, 9] ∧
    (refCopy (LzssState.initial.write 65) 0 3).1 ≠
      ((LzssState.initial.write 65).window.drop 0).take 3 := by
  refine ⟨fun st o n => refCopy_fst_replicate n st o, rfl, ?_⟩
  decide

/-- A bit of `42 = 0b101010` is set exactly at positions 1, 3 and 5. -/
theorem testBit_42_eq_true_iff (i : Nat) :
    (42 : Nat).testBit i = true ↔ i = 1 ∨ i = 3 ∨ i = 5 := by
  match i with
  | 0 => decide
  | 1 => decide
  | 2 => decide
  | 3 => decide
  | 4 => decide
  | 5 => decide
  | i + 6 =>
    have h64 : (2 : Nat) ^ 6 ≤ 2 ^ (i + 6) := Nat.pow_le_pow_right (by norm_num) (by omega)
    have h42 : (42 : Nat) < 2 ^ (i + 6) :=
      lt_of_lt_of_le (show (42 : Nat) < 2 ^ 6 by norm_num) h64
    rw [Nat.testBit_lt_two_pow h42]
    simp only [Bool.false_eq_true, false_iff]
    omega

/-- Masking with a power of two is nonzero exactly when the corresponding
bit is set. -/
theorem and_pow_ne_zero_iff (x i m : Nat) (hm : m = 2 ^ i) :
    (x &&& m ≠ 0) ↔ x.testBit i = true := by
  subst hm
  rw [Nat.and_two_pow]
  cases h : x.testBit i <;> simp

/-- `CodingInfo::is_valid` holds exactly when the reserved bits 1, 3, 5 are
clear. -/
theorem coding_valid_iff (x : Nat) :
    (CodingInfo.is_valid ⟨x⟩ = true) ↔
      (x.testBit 1 = false ∧ x.testBit 3 = false ∧ x.testBit 5 = false) := by
  simp only [CodingInfo.is_valid, decide_eq_true_eq]
  constructor
  · intro h
    have hb : ∀ i, (x.testBit i && (42 : Nat).testBit i) = false := by
      intro i
      have h0 : (x &&& 42).testBit i = (0 : Nat).testBit i := by rw [h]
      rw [Nat.testBit_and, Nat.zero_testBit] at h0
      exact h0
    refine ⟨?_, ?_, ?_⟩
    · have h1 := hb 1
      rw [(by decide : (42 : Nat).testBit 1 = true), Bool.and_true] at h1
      exact h1
    · have h3 := hb 3
      rw [(by decide : (42 : Nat).testBit 3 = true), Bool.and_true] at h3
      exact h3
    · have h5 := hb 5
      rw [(by decide : (42 : Nat).testBit 5 = true), Bool.and_true] at h5
      exact h5
  · rintro ⟨h1, h3, h5⟩
    apply Nat.eq_of_testBit_eq
    intro i
    rw [Nat.testBit_and, Nat.zero_testBit]
    by_cases hi : i = 1 ∨ i = 3 ∨ i = 5
    · rcases hi with rfl | rfl | rfl <;> simp [h1, h3, h5]
    · have h42 : (42 : Nat).testBit i = false := by
        cases ht : (42 : Nat).testBit i
        · rfl
        · exact absurd ((testBit_42_eq_true_iff i).1 ht) hi
      rw [h42, Bool.and_false]

/-- For a 3-bit value, "at most one bit set" is the same as pairwise
exclusion of the three bits. -/
theorem countOnes8_le_one_iff (v : Nat) (hv : v < 8) :
    (countOnes8 v ≤ 1) ↔
      (¬ (v.testBit 2 = true ∧ v.testBit 1 = true) ∧
       ¬ (v.testBit 2 = true ∧ v.testBit 0 = true) ∧
       ¬ (v.testBit 1 = true ∧ v.testBit 0 = true)) := by
  interval_cases v <;> decide

/-- `SubMode::is_valid` holds exactly when no two of the data (bit 3),
audio (bit 2) and video (bit 1) flags are both set. -/
theorem subMode_valid_iff (x : Nat) :
    (SubMode.is_valid ⟨x⟩ = true) ↔
      (¬ (x.testBit 3 = true ∧ x.testBit 2 = true) ∧
       ¬ (x.testBit 3 = true ∧ x.testBit 1 = true) ∧
       ¬ (x.testBit 2 = true ∧ x.testBit 1 = true)) := by
  simp only [SubMode.is_valid, decide_eq_true_eq]
  have hv : (x >>> 1) &&& 7 < 8 := Nat.lt_succ_of_le Nat.and_le_right
  rw [countOnes8_le_one_iff _ hv]
  have ht : ∀ j, ((x >>> 1) &&& 7).testBit j = (x.testBit (1 + j) && (7 : Nat).testBit j) := by
    intro j
    rw [Nat.testBit_and, Nat.testBit_shiftRight]
  rw [ht 2, ht 1, ht 0, (by decide : (7 : Nat).testBit 2 = true),
    (by decide : (7 : Nat).testBit 1 = true), (by decide : (7 : Nat).testBit 0 = true),
    Bool.and_true, Bool.and_true, Bool.and_true]

/-- **C6.**  `XaSubHeader::parse` accepts exactly the 8-byte regions whose two
halves agree byte-for-byte, whose sub-mode has at most one of the
data/audio/video bits set and whose coding info has the reserved bits clear;
and `is_audio` holds exactly when Form-2, audio and real-time are set while
data and video are clear. -/
theorem c6_xa_subheader_validation :
    (∀ d : List Nat, (XaSubHeader.parse d).isSome = true ↔ xaParseConditions d) ∧
    (∀ h : XaSubHeader, h.is_audio = true ↔ xaAudioConditions h) := by
  constructor
  · intro d
    by_cases hlen : d.length < 8
    · have h8 : ¬ (8 ≤ d.length) := by omega
      simp [XaSubHeader.parse, hlen, xaParseConditions, h8]
    · have h8 : 8 ≤ d.length := by omega
      by_cases hm : readU8 d 0 ≠ readU8 d 4 ∨ readU8 d 1 ≠ readU8 d 5 ∨
          readU8 d 2 ≠ readU8 d 6 ∨ readU8 d 3 ≠ readU8 d 7
      · simp only [XaSubHeader.parse, if_neg hlen, if_pos hm]
        simp only [Option.isSome_none, Bool.false_eq_true, false_iff, xaParseConditions]
        tauto
      · by_cases hval : (SubMode.is_valid ⟨readU8 d 2⟩ = true) ∧
            (CodingInfo.is_valid ⟨readU8 d 3⟩ = true)
        · simp only [XaSubHeader.parse, if_neg hlen, if_neg hm, if_neg (not_not.2 hval)]
          simp only [Option.isSome_some, true_iff, xaParseConditions]
          exact ⟨h8, by tauto, (subMode_valid_iff _).1 hval.1, (coding_valid_iff _).1 hval.2⟩
        · simp only [XaSubHeader.parse, if_neg hlen, if_neg hm, if_pos hval]
          simp only [Option.isSome_none, Bool.false_eq_true, false_iff, xaParseConditions]
          intro hc
          exact hval ⟨(subMode_valid_iff _).2 hc.2.2.1, (coding_valid_iff _).2 hc.2.2.2⟩
  · intro h
    simp only [XaSubHeader.is_audio, decide_eq_true_eq, xaAudioConditions,
      SubMode.is_form2, SubMode.is_audio, SubMode.is_real_time, SubMode.is_data,
      SubMode.is_video]
    rw [and_pow_ne_zero_iff _ 5 _ (by norm_num), and_pow_ne_zero_iff _ 2 _ (by norm_num),
      and_pow_ne_zero_iff _ 6 _ (by norm_num)]
    rw [show (¬ h.sub_mode.bits &&& 8 ≠ 0) ↔ h.sub_mode.bits.testBit 3 = false by
        rw [not_not, ← Bool.not_eq_true, ← and_pow_ne_zero_iff _ 3 _ (by norm_num : (8:Nat) = 2^3)]
        tauto,
      show (¬ h.sub_mode.bits &&& 2 ≠ 0) ↔ h.sub_mode.bits.testBit 1 = false by
        rw [not_not, ← Bool.not_eq_true, ← and_pow_ne_zero_iff _ 1 _ (by norm_num : (2:Nat) = 2^1)]
        tauto]

/-- A byte read below the truncation point is unchanged by `take`. -/
theorem readU8_take (d : List Nat) (n i : Nat) (h : i < n) :
    readU8 (d.take n) i = readU8 d i := by
  unfold readU8
  rw [List.getD_eq_getElem?_getD, List.getD_eq_getElem?_getD, List.getElem?_take_of_lt h]

/-- A `u16` read fully below the truncation point is unchanged by `take`. -/
theorem readU16_take (d : List Nat) (n i : Nat) (h : i + 2 ≤ n) :
    readU16 (d.take n) i = readU16 d i := by
  unfold readU16
  rw [readU8_take d n i (by omega), readU8_take d n (i + 1) (by omega)]

/-- A `u32` read fully below the truncation point is unchanged by `take`. -/
theorem readU32_take (d : List Nat) (n i : Nat) (h : i + 4 ≤ n) :
    readU32 (d.take n) i = readU32 d i := by
  unfold readU32
  rw [readU16_take d n i (by omega), readU16_take d n (i + 2) (by omega)]

/-- `Tim::parse` succeeds only on buffers at least 8 bytes long that hold
every byte the headers declare. -/
theorem tim_parse_ok_bounds (data : List Nat) (t : Tim) (h : Tim.parse data = .ok t) :
    8 ≤ data.length ∧ timNeededSize data ≤ data.length := by
  simp only [Tim.parse] at h
  split at h
  · exact Except.noConfusion h
  next h8 =>
  split at h
  · exact Except.noConfusion h
  next hm =>
  split at h
  · exact Except.noConfusion h
  next pm hpm =>
  split at h
  · exact Except.noConfusion h
  next clut offset heq =>
  split at h
  · exact Except.noConfusion h
  next hp12 =>
  split at h
  · exact Except.noConfusion h
  next hps =>
  split at h
  · exact Except.noConfusion h
  next hpd =>
  refine ⟨by omega, ?_⟩
  have hoff : offset = timPixelOffset data := by
    unfold timPixelOffset
    by_cases hcl : timHasClut (readU32 data 4) = true
    · rw [if_pos hcl]
      rw [if_pos hcl] at heq
      split at heq
      · exact Except.noConfusion heq
      split at heq
      · exact Except.noConfusion heq
      split at heq
      · exact Except.noConfusion heq
      cases heq
      rfl
    · rw [if_neg hcl]
      rw [if_neg hcl] at heq
      cases heq
      rfl
  unfold timNeededSize
  rw [← hoff]
  omega

/-- **C7.**  A successfully parsed TIM occupies no more than the input buffer
(`Tim::parse` fails whenever the headers declare more palette or pixel bytes
than remain), and parsing fails at every truncation point of a
successfully parsed buffer. -/
theorem c7_truncated_tim_rejected (data : List Nat) (t : Tim)
    (h : Tim.parse data = .ok t) :
    timNeededSize data ≤ data.length ∧
      ∀ n, n < timNeededSize data → (Tim.parse (data.take n)).isOk = false := by
  obtain ⟨h8, hneed⟩ := tim_parse_ok_bounds data t h
  refine ⟨hneed, ?_⟩
  intro n hn
  by_contra hok
  rw [Bool.not_eq_false] at hok
  obtain ⟨t', ht'⟩ : ∃ t', Tim.parse (data.take n) = .ok t' := by
    cases hp : Tim.parse (data.take n)
    · rw [hp] at hok; exact Bool.noConfusion hok
    · exact ⟨_, rfl⟩
  obtain ⟨h8', hneed'⟩ := tim_parse_ok_bounds _ _ ht'
  rw [List.length_take] at h8' hneed'
  have hn8 : 8 ≤ n := le_trans h8' (min_le_left _ _)
  have hflags : readU32 (data.take n) 4 = readU32 data 4 := readU32_take data n 4 (by omega)
  have hcleq : timHasClut (readU32 (data.take n) 4) = timHasClut (readU32 data 4) := by
    rw [hflags]
  by_cases hcl : timHasClut (readU32 data 4) = true
  · by_cases h12 : 12 ≤ n
    · have hc8 : readU32 (data.take n) 8 = readU32 data 8 := readU32_take data n 8 (by omega)
      have hpo : timPixelOffset (data.take n) = timPixelOffset data := by
        unfold timPixelOffset
        rw [hflags, hc8]
      by_cases hpon : timPixelOffset data + 12 ≤ n
      · have hpr : readU32 (data.take n) (timPixelOffset data) =
            readU32 data (timPixelOffset data) := readU32_take data n _ (by omega)
        have hsame : timNeededSize (data.take n) = timNeededSize data := by
          unfold timNeededSize
          rw [hpo, hpr]
        omega
      · have hlow : timPixelOffset data + 12 ≤ timNeededSize (data.take n) := by
          unfold timNeededSize
          rw [hpo]
          omega
        omega
    · have hcl' : timHasClut (readU32 (data.take n) 4) = true := by rw [hcleq]; exact hcl
      have hlow : 20 ≤ timPixelOffset (data.take n) := by
        unfold timPixelOffset
        rw [if_pos hcl']
        omega
      have hlow2 : 32 ≤ timNeededSize (data.take n) := by
        unfold timNeededSize
        omega
      omega
  · have hpo : timPixelOffset (data.take n) = 8 := by
      unfold timPixelOffset
      rw [hcleq, if_neg hcl]
    have hpod : timPixelOffset data = 8 := by
      unfold timPixelOffset
      rw [if_neg hcl]
    by_cases h20 : 20 ≤ n
    · have hpr : readU32 (data.take n) 8 = readU32 data 8 := readU32_take data n 8 (by omega)
      have hsame : timNeededSize (data.take n) = timNeededSize data := by
        unfold timNeededSize
        rw [hpo, hpod, hpr]
      omega
    · have hlow : 20 ≤ timNeededSize (data.take n) := by
        unfold timNeededSize
        rw [hpo]
        omega
      omega

/-- **C7, witness**: the valid 22-byte TIM parses, and parsing its 21-byte
truncation fails. -/
theorem c7_witness :
    timNeededSize timGoodBytes ≤ timGoodBytes.length ∧
      (Tim.parse (timGoodBytes.take 21)).isOk = false :=
  ⟨(c7_truncated_tim_rejected timGoodBytes timW rfl).1,
   (c7_truncated_tim_rejected timGoodBytes timW rfl).2 21 (by decide)⟩

/-- **C2, counterexample.**  `c2bytes` is a TIM input (pixel width field 0)
that the strict parser accepts but the fast validator rejects, so
"`Tim::parse` succeeds implies `Tim::validate` succeeds" is false. -/
theorem c2_counterexample :
    (Tim.parse c2bytes).isOk = true ∧ (Tim.validate c2bytes).isOk = false := by
  decide

/-- Every asset found by the TIM scan loop starting from `offset` starts at
or after `offset`. -/
theorem scanTimLoop_offset_le (data : List Nat) (minSize : Nat) :
    ∀ (fuel offset : Nat) (a : DiscoveredAsset),
      a ∈ scanTimLoop data minSize fuel offset → offset ≤ a.offset := by
  intro fuel
  induction fuel with
  | zero => intro offset a ha; simp [scanTimLoop] at ha
  | succ fuel ih =>
    intro offset a ha
    simp only [scanTimLoop] at ha
    split at ha
    · split at ha
      · split at ha
        next w h size hval =>
          split at ha
          · rcases List.mem_cons.1 ha with rfl | ha
            · exact le_refl _
            · exact le_trans (Nat.le_add_right _ _) (ih _ _ ha)
          · exact le_trans (Nat.le_add_right offset 1) (ih _ _ ha)
        next e hval => exact le_trans (Nat.le_add_right offset 1) (ih _ _ ha)
      · exact le_trans (Nat.le_add_right offset 1) (ih _ _ ha)
    · simp at ha

/-- The TIM scan loop emits assets in strictly advancing, non-overlapping
order: each asset ends at or before the next one starts. -/
theorem scanTimLoop_pairwise (data : List Nat) (minSize : Nat) :
    ∀ (fuel offset : Nat),
      (scanTimLoop data minSize fuel offset).Pairwise
        (fun a b => a.offset + a.size ≤ b.offset) := by
  intro fuel
  induction fuel with
  | zero => intro offset; simp [scanTimLoop]
  | succ fuel ih =>
    intro offset
    simp only [scanTimLoop]
    split
    · split
      · split
        next w h size hval =>
          split
          · refine List.Pairwise.cons ?_ (ih _)
            intro b hb
            exact scanTimLoop_offset_le data minSize fuel (offset + size) b hb
          · exact ih _
        next e hval => exact ih _
      · exact ih _
    · exact List.Pairwise.nil

/-- The length of the CLUT word list read by `Tim::parse`. -/
theorem clutWords_length (data : List Nat) (o s : Nat) :
    (clutWords data o s).length = s / 2 := by
  simp [clutWords]

/-- The `data_size` of a parsed TIM, expressed over the raw input's header
fields. -/
theorem tim_parse_data_size (data : List Nat) (t : Tim) (h : Tim.parse data = .ok t) :
    t.data_size = 8 +
      (if timHasClut (readU32 data 4) = true then 12 + 2 * ((readU32 data 8 - 12) / 2) else 0) +
      12 + (readU32 data (timPixelOffset data) - 12) := by
  simp only [Tim.parse] at h
  split at h
  · exact Except.noConfusion h
  next h8 =>
  split at h
  · exact Except.noConfusion h
  next hm =>
  split at h
  · exact Except.noConfusion h
  next pm hpm =>
  split at h
  · exact Except.noConfusion h
  next clut offset heq =>
  split at h
  · exact Except.noConfusion h
  next hp12 =>
  split at h
  · exact Except.noConfusion h
  next hps =>
  split at h
  · exact Except.noConfusion h
  next hpd =>
  cases h
  by_cases hcl : timHasClut (readU32 data 4) = true
  · rw [if_pos hcl] at heq
    split at heq
    · exact Except.noConfusion heq
    next h20 =>
    split at heq
    · exact Except.noConfusion heq
    next hcds =>
    split at heq
    · exact Except.noConfusion heq
    next hcdata =>
    cases heq
    simp only [Tim.data_size, clutWords_length, List.length_take, List.length_drop,
      timPixelOffset, if_pos hcl]
    omega
  · rw [if_neg hcl] at heq
    cases heq
    simp only [Tim.data_size, List.length_take, List.length_drop,
      timPixelOffset, if_neg hcl]
    omega

/-- When `timValidateClut` succeeds, the returned offset is the declared
pixel-block offset, the running size covers the CLUT block, and the CLUT
block's declared size is even. -/
theorem timValidateClut_ok (data : List Nat) (o ts : Nat)
    (h : timValidateClut data = .ok (o, ts)) :
    o = timPixelOffset data ∧
      ts = 8 + (if timHasClut (readU32 data 4) = true then 12 + (readU32 data 8 - 12) else 0) ∧
      (timHasClut (readU32 data 4) = true → readU32 data 8 % 2 = 0) := by
  unfold timValidateClut at h
  by_cases hcl : timHasClut (readU32 data 4) = true
  · rw [if_pos hcl] at h
    split at h
    · exact Except.noConfusion h
    next h20 =>
    split at h
    · exact Except.noConfusion h
    next hsz =>
    split at h
    · exact Except.noConfusion h
    next hcw =>
    split at h
    · exact Except.noConfusion h
    next hch =>
    split at h
    · exact Except.noConfusion h
    next hcd =>
    cases h
    refine ⟨?_, ?_, ?_⟩
    · unfold timPixelOffset
      rw [if_pos hcl]
    · rw [if_pos hcl]
      omega
    · intro _
      rcases not_or.1 hsz with ⟨_, hb⟩
      omega
  · rw [if_neg hcl] at h
    cases h
    refine ⟨?_, ?_, fun hcc => absurd hcc hcl⟩
    · unfold timPixelOffset
      rw [if_neg hcl]
    · rw [if_neg hcl]

/-- When `timValidatePixel` succeeds, the reported total size adds the pixel
header and the declared pixel data bytes. -/
theorem timValidatePixel_ok (data : List Nat) (o ts : Nat) (pm : PixelMode)
    (w hgt s : Nat) (hv : timValidatePixel data o ts pm = .ok (w, hgt, s)) :
    s = ts + 12 + (readU32 data o - 12) := by
  unfold timValidatePixel at hv
  split at hv
  · exact Except.noConfusion hv
  split at hv
  · exact Except.noConfusion hv
  split at hv
  · exact Except.noConfusion hv
  split at hv
  · exact Except.noConfusion hv
  split at hv
  · exact Except.noConfusion hv
  split at hv
  · exact Except.noConfusion hv
  cases hv
  rfl

/-- The total size that `Tim::validate` reports, expressed over the raw
input's header fields (the CLUT block size is even whenever validation
passes, because of the `clutSize % 2` check). -/
theorem tim_validate_ok_size (data : List Nat) (w hgt s : Nat)
    (hv : Tim.validate data = .ok (w, hgt, s)) :
    s = 8 +
      (if timHasClut (readU32 data 4) = true then 12 + 2 * ((readU32 data 8 - 12) / 2) else 0) +
      12 + (readU32 data (timPixelOffset data) - 12) := by
  unfold Tim.validate at hv
  split at hv
  · exact Except.noConfusion hv
  next h8 =>
  split at hv
  · exact Except.noConfusion hv
  next hm =>
  split at hv
  · exact Except.noConfusion hv
  next hres =>
  split at hv
  · exact Except.noConfusion hv
  next pm hpm =>
  split at hv
  · exact Except.noConfusion hv
  next o ts hclut =>
  obtain ⟨ho, hts, heven⟩ := timValidateClut_ok data o ts hclut
  have hs := timValidatePixel_ok data o ts pm w hgt s hv
  subst ho
  by_cases hcl : timHasClut (readU32 data 4) = true
  · rw [if_pos hcl] at hts ⊢
    have := heven hcl
    omega
  · rw [if_neg hcl] at hts ⊢
    omega

/-- **C2, amended.**  `AssetScanner::scan` never returns two assets with
overlapping byte ranges; and whenever `Tim::parse` and `Tim::validate` both
succeed on the same input, the size `validate` reports equals the byte size
the parsed asset occupies.  (The original claim's "`parse` succeeds implies
`validate` succeeds" is refuted by `c2_counterexample`.) -/
theorem c2_scan_disjoint_and_size_agreement :
    (∀ (data : List Nat) (minSize : Nat), (scan data minSize).Pairwise disjointAssets) ∧
    (∀ (data : List Nat) (t : Tim) (w h s : Nat),
        Tim.parse data = .ok t → Tim.validate data = .ok (w, h, s) → s = t.data_size) := by
  constructor
  · intro data minSize
    have hperm : (scan data minSize).Perm (scanTim data minSize) :=
      List.mergeSort_perm _ _
    have hp : (scanTim data minSize).Pairwise (fun a b => a.offset + a.size ≤ b.offset) :=
      scanTimLoop_pairwise data minSize _ 0
    have hp2 : (scanTim data minSize).Pairwise disjointAssets :=
      hp.imp fun hab => Or.inl hab
    exact (hperm.pairwise_iff fun hxy => hxy.elim Or.inr Or.inl).2 hp2
  · intro data t w h s hp hv
    rw [tim_parse_data_size data t hp, tim_validate_ok_size data w h s hv]

/-- **C2, witness** for the amended size agreement at the valid 22-byte TIM. -/
theorem c2_witness : (22 : Nat) = timW.data_size :=
  c2_scan_disjoint_and_size_agreement.2 timGoodBytes timW 1 1 22 rfl rfl

/-- **C3, counterexample.**  `c3bytes` is a 24-bit TIM accepted by both
`Tim::parse` and `Tim::validate` (3 words × 1 row, 6 data bytes = 2 whole
RGB pixels); decoding yields 8 bytes while `width() × height() × 4 = 12`. -/
theorem c3_counterexample :
    ((Tim.parse c3bytes).toOption.bind fun t =>
        (t.to_rgba8).toOption.map fun out => (out.length, t.width * t.height * 4)) =
      some (8, 12) ∧
    (Tim.validate c3bytes).isOk = true ∧ (8 : Nat) ≠ 12 := by
  refine ⟨rfl, rfl, by decide⟩

/-- Every RGBA conversion of one color word is 4 bytes. -/
theorem rgb555_length (c : Nat) : (rgb555_to_rgba c).length = 4 := rfl

/-- `chunks_exact(2)` yields `⌊n / 2⌋` chunks. -/
theorem chunksExact2_length : ∀ l : List Nat, (chunksExact2 l).length = l.length / 2
  | [] => rfl
  | [_] => by
    show (0 : Nat) = 1 / 2
    norm_num
  | a :: b :: rest => by
    simp only [chunksExact2, List.length_cons, chunksExact2_length rest]
    omega

/-- A `flatMap` whose pieces all have length `k` has length `k · n`. -/
theorem flatMap_const_length {α : Type} (l : List α) (f : α → List Nat) (k : Nat)
    (hf : ∀ x ∈ l, (f x).length = k) : (l.flatMap f).length = k * l.length := by
  induction l with
  | nil => simp
  | cons a l ih =>
    simp only [List.flatMap_cons, List.length_append, List.length_cons,
      hf a (List.mem_cons_self a l), ih fun x hx => hf x (List.mem_cons_of_mem a hx)]
    rw [Nat.mul_succ]
    omega

/-- A 4-bit pixel byte with both nibble indices inside the CLUT contributes
8 RGBA bytes. -/
theorem convert4Byte_length (clut : List Nat) (b : Nat)
    (h1 : b &&& 0x0F < clut.length) (h2 : (b >>> 4) &&& 0x0F < clut.length) :
    (convert4Byte clut b).length = 8 := by
  simp [convert4Byte, h1, h2, rgb555_length]

/-- **C3, amended.**  For a parsed TIM in 16-bit, 4-bit or 8-bit mode whose
pixel data length exactly matches its dimensions (2 bytes per word times
height), whose word width is small enough that the `u16` computation in
`Tim::width` does not overflow, and — in the indexed modes — whose palette
indices all fall inside the CLUT, decoding yields exactly
`width() × height() × 4` bytes.  (24-bit mode yields `4·⌊bytes/3⌋` bytes
instead, refuted by `c3_counterexample`.) -/
theorem c3_decode_size (bytes : List Nat) (t : Tim) (hparse : Tim.parse bytes = .ok t)
    (hmode : t.pixelMode = .direct16Bit ∨ t.pixelMode = .clut4Bit ∨ t.pixelMode = .clut8Bit)
    (hlen : t.pixels.data.length = 2 * t.pixels.dimensions.1 * t.pixels.dimensions.2)
    (h4w : t.pixelMode = .clut4Bit → t.pixels.dimensions.1 * 4 < 65536)
    (h8w : t.pixelMode = .clut8Bit → t.pixels.dimensions.1 * 2 < 65536)
    (h4 : t.pixelMode = .clut4Bit → ∃ c, t.clut = some c ∧
        ∀ b ∈ t.pixels.data, b &&& 0x0F < c.data.length ∧ (b >>> 4) &&& 0x0F < c.data.length)
    (h8 : t.pixelMode = .clut8Bit → ∃ c, t.clut = some c ∧
        ∀ b ∈ t.pixels.data, b < c.data.length) :
    ∃ out, t.to_rgba8 = .ok out ∧ out.length = t.width * t.height * 4 := by
  rcases hmode with hm | hm | hm
  · refine ⟨(chunksExact2 t.pixels.data).flatMap fun p => rgb555_to_rgba (p.1 + 256 * p.2),
      ?_, ?_⟩
    · simp [Tim.to_rgba8, hm, Tim.convert16]
    · rw [flatMap_const_length _ _ 4 fun x _ => rgb555_length _, chunksExact2_length, hlen]
      simp only [Tim.width, Tim.height, hm]
      rw [Nat.mul_assoc, Nat.mul_div_cancel_left _ (by norm_num : (0 : Nat) < 2)]
      ring
  · obtain ⟨c, hc, hin⟩ := h4 hm
    refine ⟨t.pixels.data.flatMap (convert4Byte c.data), ?_, ?_⟩
    · simp [Tim.to_rgba8, hm, Tim.convert4, hc]
    · rw [flatMap_const_length _ _ 8 fun x hx => convert4Byte_length _ _ (hin x hx).1 (hin x hx).2,
        hlen]
      simp only [Tim.width, Tim.height, hm]
      rw [Nat.mod_eq_of_lt (h4w hm)]
      ring
  · obtain ⟨c, hc, hin⟩ := h8 hm
    refine ⟨t.pixels.data.flatMap fun idx =>
        if idx < c.data.length then rgb555_to_rgba (c.data.getD idx 0) else [], ?_, ?_⟩
    · simp [Tim.to_rgba8, hm, Tim.convert8, hc]
    · rw [flatMap_const_length _ _ 4 fun x hx => by
          rw [if_pos (hin x hx)]; exact rgb555_length _, hlen]
      simp only [Tim.width, Tim.height, hm]
      rw [Nat.mod_eq_of_lt (h8w hm)]
      ring

/-- **C3, witness**: the amended theorem applied to the valid 1×1 16-bit TIM. -/
theorem c3_witness :
    ∃ out, timW.to_rgba8 = .ok out ∧ out.length = timW.width * timW.height * 4 :=
  c3_decode_size timGoodBytes timW rfl (Or.inl rfl) (by decide)
    (fun h => absurd h (by decide)) (fun h => absurd h (by decide))
    (fun h => absurd h (by decide)) (fun h => absurd h (by decide))

/-- **C4, counterexample.**  In `c4bytes` both ADPCM blocks carry the
loop-start flag `0x02`; the first occurrence is block 0 (sample 0), yet
`Vag::parse` records `loop_start = 28` — the last occurrence, not the
first. -/
theorem c4_counterexample :
    ((Vag.parse c4bytes).toOption.map fun v =>
        (v.loopStart, firstStartPoint (vagBlocks v.data))) = some (some 28, some 0) ∧
    some 28 ≠ some (0 : Nat) := by
  refine ⟨rfl, by decide⟩

/-- Prepending a block to the scan overwrites older candidates: the last
start marker of `x :: bl` is the last one of `bl`, or `x` itself if `bl` has
none and `x` is marked. -/
theorem lastStartPoint_cons (x : Nat × Nat) (bl : List (Nat × Nat)) :
    lastStartPoint (x :: bl) =
      (lastStartPoint bl).or (if x.2 = 2 ∨ x.2 = 6 then some (x.1 * 28) else none) := by
  unfold lastStartPoint
  rw [List.reverse_cons, List.find?_append]
  cases hf : bl.reverse.find? fun p => p.2 = 2 ∨ p.2 = 6 <;>
    by_cases hx : x.2 = 2 ∨ x.2 = 6 <;>
      simp [hf, hx]

/-- The analogue of `lastStartPoint_cons` for end markers. -/
theorem lastEndPoint_cons (x : Nat × Nat) (bl : List (Nat × Nat)) :
    lastEndPoint (x :: bl) =
      (lastEndPoint bl).or
        (if x.2 = 3 ∨ x.2 = 6 then some (if x.2 = 6 then x.1 * 28 + 28 else x.1 * 28)
         else none) := by
  unfold lastEndPoint
  rw [List.reverse_cons, List.find?_append]
  cases hf : bl.reverse.find? fun p => p.2 = 3 ∨ p.2 = 6 <;>
    by_cases hx : x.2 = 3 ∨ x.2 = 6 <;>
      simp [hf, hx]

/-- The flag-scanning loop of `Vag::find_loop_points` computes, for both the
start and the end accumulator, the last matching block of the region (or
keeps the accumulator when none matches). -/
theorem findLoopPointsLoop_eq (fuel : Nat) :
    ∀ (data : List Nat) (idx : Nat) (ls le : Option Nat),
      findLoopPointsLoop fuel data idx ls le =
        ((lastStartPoint (vagBlockFlags fuel data idx)).or ls,
         (lastEndPoint (vagBlockFlags fuel data idx)).or le) := by
  induction fuel with
  | zero =>
    intro data idx ls le
    simp [findLoopPointsLoop, vagBlockFlags, lastStartPoint, lastEndPoint]
  | succ fuel ih =>
    intro data idx ls le
    by_cases hlen2 : data.length < 2
    · simp [findLoopPointsLoop, vagBlockFlags, hlen2, lastStartPoint, lastEndPoint]
    · simp only [findLoopPointsLoop, vagBlockFlags, if_neg hlen2]
      split
      next heq =>
        rw [ih, lastStartPoint_cons, lastEndPoint_cons, heq]
        simp [Option.or_assoc]
      next heq =>
        rw [ih, lastStartPoint_cons, lastEndPoint_cons, heq]
        simp [Option.or_assoc]
      next heq =>
        rw [ih, lastStartPoint_cons, lastEndPoint_cons, heq]
        simp [Option.or_assoc]
      next h2 h3 h6 =>
        rw [ih, lastStartPoint_cons, lastEndPoint_cons]
        have hs : ¬ (data.getD 1 0 = 2 ∨ data.getD 1 0 = 6) := by tauto
        have he : ¬ (data.getD 1 0 = 3 ∨ data.getD 1 0 = 6) := by tauto
        rw [if_neg hs, if_neg he, Option.or_none, Option.or_none]

/-- **C4, amended.**  `Vag::parse` derives loop points solely by scanning the
flag byte of each 16-byte block of the audio payload (the payload being
`data[48 .. 48 + min(declared size, remaining bytes)]`; nothing is read from
the header): the recorded loop start is `block_index × 28` of the **last**
block flagged `0x02` or `0x06`, and the recorded loop end comes from the
**last** block flagged `0x03` or `0x06` — at `block_index × 28` for `0x03`
and `block_index × 28 + 28` for `0x06`. -/
theorem c4_loop_points (bytes : List Nat) (v : Vag) (h : Vag.parse bytes = .ok v) :
    v.loopStart = lastStartPoint (vagBlocks v.data) ∧
    v.loopEnd = lastEndPoint (vagBlocks v.data) ∧
    v.data = (bytes.drop 48).take (min (readU32BE bytes 12) (bytes.length - 48)) := by
  unfold Vag.parse at h
  split at h
  · exact Except.noConfusion h
  next h48 =>
  split at h
  · exact Except.noConfusion h
  next hmagic =>
  cases h
  refine ⟨?_, ?_, rfl⟩
  · show (findLoopPoints _).1 = _
    unfold findLoopPoints vagBlocks
    rw [findLoopPointsLoop_eq]
    simp [Option.or_none]
  · show (findLoopPoints _).2 = _
    unfold findLoopPoints vagBlocks
    rw [findLoopPointsLoop_eq]
    simp [Option.or_none]

/-- **C4, witness**: the amended theorem at the one-block VAG whose flag is
the loop-end code `0x03`. -/
theorem c4_witness :
    vagW.loopStart = lastStartPoint (vagBlocks vagW.data) ∧
    vagW.loopEnd = lastEndPoint (vagBlocks vagW.data) ∧
    vagW.data = (c4goodBytes.drop 48).take
      (min (readU32BE c4goodBytes 12) (c4goodBytes.length - 48)) :=
  c4_loop_points c4goodBytes vagW rfl

/-- **C5, counterexample.**  In `c5bad` the very first pair's byte range
(`end_sector = 0xFFFFFFFF`) exceeds double the 16-byte input, so the
corruption guard stops before any entry is collected — and `DatArchive::parse`
then returns an error instead of "the entries gathered so far" (an empty
archive), refuting the claim's "in each case returning the entries gathered
so far". -/
theorem c5_counterexample :
    (DatArchive.parse c5bad).isOk = false ∧
      (datPair c5bad 0).byte_offset + (datPair c5bad 0).byte_size > 2 * c5bad.length := by
  refine ⟨rfl, by decide⟩

/-- Invariant of the DAT table loop: with enough fuel, a successful run
collects at most up to the cap, reads consecutive pairs that all pass the
corruption guard (and, beyond the first overall entry, are not the all-zero
terminator), and stops exactly at an in-bounds pair only when that pair trips
the corruption guard or is all-zero. -/
theorem datLoop_ok (data : List Nat) :
    ∀ (fuel offset count : Nat) (es : List DatEntry) (ts fo : Nat),
      data.length < offset + 8 * fuel →
      count ≤ 10000 →
      datLoop data fuel offset count = .ok (es, ts, fo) →
      count + es.length ≤ 10000 ∧
      (∀ i, i < es.length →
          es.getD i ⟨0, 0⟩ = datPair data (offset + 8 * i) ∧
          (datPair data (offset + 8 * i)).byte_offset +
              (datPair data (offset + 8 * i)).byte_size ≤ data.length * 2 ∧
          (0 < count + i → ¬ datPair data (offset + 8 * i) = (⟨0, 0⟩ : DatEntry))) ∧
      (offset + 8 * es.length + 8 ≤ data.length →
        (datPair data (offset + 8 * es.length)).byte_offset +
            (datPair data (offset + 8 * es.length)).byte_size > data.length * 2 ∨
          ((datPair data (offset + 8 * es.length)).start_sector = 0 ∧
           (datPair data (offset + 8 * es.length)).end_sector = 0)) := by
  intro fuel
  induction fuel with
  | zero =>
    intro offset count es ts fo hfuel hcount h
    simp only [datLoop] at h
    cases h
    refine ⟨by simpa using hcount, fun i hi => absurd hi (by simp),
      fun hle => absurd hle (by simp; omega)⟩
  | succ fuel ih =>
    intro offset count es ts fo hfuel hcount h
    simp only [datLoop] at h
    split at h
    next hend =>
      cases h
      refine ⟨by simpa using hcount, fun i hi => absurd hi (by simp),
        fun hle => absurd hle (by simp; omega)⟩
    next hend =>
    split at h
    next hguard =>
      cases h
      refine ⟨by simpa using hcount, fun i hi => absurd hi (by simp), fun _ => Or.inl ?_⟩
      simpa [datPair] using hguard
    next hguard =>
    split at h
    next hzero =>
      cases h
      refine ⟨by simpa using hcount, fun i hi => absurd hi (by simp), fun _ => Or.inr ?_⟩
      simp only [datPair]
      exact ⟨hzero.2.1, hzero.2.2⟩
    next hzero =>
    split at h
    next hcap => exact Except.noConfusion h
    next hcap =>
    cases hrec : datLoop data fuel (offset + 8) (count + 1) with
    | error er => rw [hrec] at h; exact Except.noConfusion h
    | ok res =>
      rw [hrec] at h
      obtain ⟨es', ts', fo'⟩ := res
      simp only [Except.ok.injEq, Prod.mk.injEq] at h
      obtain ⟨hes, hts, hfo⟩ := h
      subst hes hts hfo
      obtain ⟨ih1, ih2, ih3⟩ := ih (offset + 8) (count + 1) es' ts' fo'
        (by omega) (by omega) hrec
      refine ⟨by simp; omega, ?_, ?_⟩
      · intro i hi
        cases i with
        | zero =>
          refine ⟨by simp [datPair], by simpa [datPair] using hguard, ?_⟩
          intro hpos
          intro hcontra
          apply hzero
          refine ⟨by omega, ?_, ?_⟩
          · have := congrArg DatEntry.start_sector hcontra
            simpa [datPair] using this
          · have := congrArg DatEntry.end_sector hcontra
            simpa [datPair] using this
        | succ i =>
          simp only [List.length_cons] at hi
          obtain ⟨hia, hib, hic⟩ := ih2 i (by omega)
          have hoff : offset + 8 + 8 * i = offset + 8 * (i + 1) := by omega
          rw [hoff] at hia hib hic
          exact ⟨by simpa using hia, hib, fun _ => hic (by omega)⟩
      · intro hle
        simp only [List.length_cons] at hle ⊢
        have hoff : offset + 8 + 8 * es'.length = offset + 8 * (es'.length + 1) := by omega
        rw [hoff] at ih3
        exact ih3 (by omega)

/-- **C5, amended.**  `DatArchive::parse` reads consecutive 8-byte
little-endian `(start_sector, end_sector)` pairs from offset 0.  It stops
collecting exactly at the first all-zero pair after at least one collected
entry, or at the first pair whose byte range would exceed double the input
length; it returns the entries gathered so far only when at least one entry
was gathered (otherwise it errors), and it never succeeds with more than
10000 entries (the hard cap aborts with an error rather than returning the
entries). -/
theorem c5_dat_parse (data : List Nat) (a : DatArchive)
    (h : DatArchive.parse data = .ok a) :
    (1 ≤ a.entries.length ∧ a.entries.length ≤ 10000) ∧
    (∀ i, i < a.entries.length →
        a.entries.getD i ⟨0, 0⟩ = datPair data (8 * i) ∧
        (datPair data (8 * i)).byte_offset + (datPair data (8 * i)).byte_size ≤
          data.length * 2 ∧
        (0 < i → ¬ datPair data (8 * i) = (⟨0, 0⟩ : DatEntry))) ∧
    (8 * a.entries.length + 8 ≤ data.length →
      (datPair data (8 * a.entries.length)).byte_offset +
          (datPair data (8 * a.entries.length)).byte_size > data.length * 2 ∨
        ((datPair data (8 * a.entries.length)).start_sector = 0 ∧
         (datPair data (8 * a.entries.length)).end_sector = 0)) := by
  unfold DatArchive.parse at h
  split at h
  · exact Except.noConfusion h
  next hlen =>
  cases hloop : datLoop data (data.length / 8 + 1) 0 0 with
  | error e => rw [hloop] at h; exact Except.noConfusion h
  | ok res =>
    rw [hloop] at h
    obtain ⟨entries, ts, fo⟩ := res
    have h2 : (if entries.isEmpty = true then (Except.error PsxError.parseError : Except PsxError DatArchive)
        else .ok ⟨entries, if ts = 0 then fo else ts⟩) = .ok a := h
    clear h
    by_cases hemp : entries.isEmpty = true
    · rw [if_pos hemp] at h2
      exact Except.noConfusion h2
    · rw [if_neg hemp] at h2
      cases h2
      have hproj : ({ entries := entries, tableSize := if ts = 0 then fo else ts } :
          DatArchive).entries = entries := rfl
      rw [hproj]
      obtain ⟨hg1, hg2, hg3⟩ := datLoop_ok data (data.length / 8 + 1) 0 0 entries ts fo
        (by omega) (by omega) hloop
      have hne : 1 ≤ entries.length := by
        cases entries with
        | nil => exact absurd rfl hemp
        | cons a l => simp
      refine ⟨⟨hne, by omega⟩, ?_, ?_⟩
      · intro i hi
        have := hg2 i hi
        simpa using this
      · intro hle
        have := hg3 (by omega)
        simpa using this

/-- **C5, witness**: 16 zero bytes parse into one all-zero entry terminated
by the all-zero pair that follows it. -/
theorem c5_witness :
    (1 ≤ datW.entries.length ∧ datW.entries.length ≤ 10000) ∧
      (8 * datW.entries.length + 8 ≤ c5good.length →
        (datPair c5good (8 * datW.entries.length)).byte_offset +
            (datPair c5good (8 * datW.entries.length)).byte_size > c5good.length * 2 ∨
          ((datPair c5good (8 * datW.entries.length)).start_sector = 0 ∧
           (datPair c5good (8 * datW.entries.length)).end_sector = 0)) :=
  ⟨(c5_dat_parse c5good datW rfl).1, (c5_dat_parse c5good datW rfl).2.2⟩

/-- When the vertex-reading loop of `Tmd::parse_object` succeeds, every
8-byte record it visited fit inside the buffer. -/
theorem readVertices_ok_bounds (data : List Nat) (base : Nat) :
    ∀ (rem i : Nat) (vs : List TmdVertex),
      readVertices data base i rem = .ok vs →
      ∀ j, i ≤ j → j < i + rem → base + j * 8 + 8 ≤ data.length := by
  intro rem
  induction rem with
  | zero => intro i vs _ j h1 h2; omega
  | succ rem ih =>
    intro i vs h j h1 h2
    simp only [readVertices] at h
    split at h
    next hb => exact Except.noConfusion h
    next hb =>
    rcases eq_or_lt_of_le h1 with rfl | hlt
    · omega
    · cases hrec : readVertices data base (i + 1) rem with
      | error e => rw [hrec] at h; exact Except.noConfusion h
      | ok vs' => exact ih (i + 1) vs' hrec j (by omega) (by omega)

/-- When `Tmd::parse_object` succeeds and its table entry declares at least
one vertex, all declared vertex records fit inside the buffer. -/
theorem parseObject_vertex_bound (data : List Nat) (entryOff : Nat) (o : TmdObject)
    (h : parseObject data entryOff = .ok o) (hpos : 0 < readU32 data (entryOff + 4)) :
    readU32 data entryOff + 8 * readU32 data (entryOff + 4) ≤ data.length := by
  simp only [parseObject] at h
  split at h
  · exact Except.noConfusion h
  next hvc =>
  split at h
  · exact Except.noConfusion h
  next hnc =>
  cases hv : readVertices data (readU32 data entryOff) 0 (readU32 data (entryOff + 4)) with
  | error e => rw [hv] at h; exact Except.noConfusion h
  | ok vs =>
    have hb := readVertices_ok_bounds data (readU32 data entryOff)
      (readU32 data (entryOff + 4)) 0 vs hv (readU32 data (entryOff + 4) - 1)
      (by omega) (by omega)
    omega

/-- When the object-table loop succeeds, every object in its range whose
entry declares vertices keeps all its vertex records inside the buffer. -/
theorem parseObjects_bounds (data : List Nat) :
    ∀ (rem i0 : Nat) (os : List TmdObject),
      parseObjects data i0 rem = .ok os →
      ∀ i, i0 ≤ i → i < i0 + rem →
        (0 < readU32 data (12 + i * 28 + 4) →
          readU32 data (12 + i * 28) + 8 * readU32 data (12 + i * 28 + 4) ≤ data.length) := by
  intro rem
  induction rem with
  | zero => intro i0 os _ i h1 h2; omega
  | succ rem ih =>
    intro i0 os h i h1 h2
    simp only [parseObjects] at h
    split at h
    next hb => exact Except.noConfusion h
    next hb =>
    cases ho : parseObject data (12 + i0 * 28) with
    | error e => rw [ho] at h; exact Except.noConfusion h
    | ok o =>
      rw [ho] at h
      rcases eq_or_lt_of_le h1 with heq | hlt
      · intro hpos
        rw [← heq] at hpos ⊢
        exact parseObject_vertex_bound data (12 + i0 * 28) o ho hpos
      · cases hrec : parseObjects data (i0 + 1) rem with
        | error e => rw [hrec] at h; exact Except.noConfusion h
        | ok os' => exact ih (i0 + 1) os' hrec i (by omega) (by omega)

/-- **C8.**  `Tmd::parse` returns an error for every input whose header
declares zero objects; and whenever it succeeds, every object-table entry
that declares vertices keeps all its 8-byte vertex records inside the input
buffer — so an entry whose records would extend past the end makes the parse
return an error rather than read out of bounds. -/
theorem c8_tmd_rejections :
    (∀ data : List Nat, readU32 data 8 = 0 → (Tmd.parse data).isOk = false) ∧
    (∀ (data : List Nat) (i : Nat), (Tmd.parse data).isOk = true →
        i < readU32 data 8 → 0 < readU32 data (12 + i * 28 + 4) →
        readU32 data (12 + i * 28) + 8 * readU32 data (12 + i * 28 + 4) ≤ data.length) := by
  constructor
  · intro data h0
    by_cases h12 : data.length < 12
    · simp only [Tmd.parse, if_pos h12]
      rfl
    · by_cases hmg : readU32 data 0 ≠ TMD_MAGIC
      · simp only [Tmd.parse, if_neg h12, if_pos hmg]
        rfl
      · simp only [Tmd.parse, if_neg h12, if_neg hmg]
        rw [if_pos h0]
        rfl
  · intro data i hok hi hpos
    obtain ⟨t, ht⟩ : ∃ t, Tmd.parse data = .ok t := by
      cases hp : Tmd.parse data with
      | error e => rw [hp] at hok; exact Bool.noConfusion hok
      | ok t => exact ⟨t, rfl⟩
    simp only [Tmd.parse] at ht
    split at ht
    · exact Except.noConfusion ht
    next hlen =>
    split at ht
    · exact Except.noConfusion ht
    next hmagic =>
    split at ht
    · exact Except.noConfusion ht
    next h0 =>
    split at ht
    · exact Except.noConfusion ht
    next hmax =>
    cases ho : parseObjects data 0 (readU32 data 8) with
    | error e => rw [ho] at ht; exact Except.noConfusion ht
    | ok os =>
      exact parseObjects_bounds data (readU32 data 8) 0 os ho i (by omega) (by omega) hpos

/-- **C8, witness**: the zero-object TMD `tmdA` is rejected, and in the valid
one-object, one-vertex TMD `tmdB` the vertex record range `40 + 8·1` fits in
the 48-byte buffer. -/
theorem c8_witness :
    (Tmd.parse tmdA).isOk = false ∧
      readU32 tmdB (12 + 0 * 28) + 8 * readU32 tmdB (12 + 0 * 28 + 4) ≤ tmdB.length :=
  ⟨c8_tmd_rejections.1 tmdA (by decide),
   c8_tmd_rejections.2 tmdB 0 rfl (by decide) (by decide)⟩

end Legaia
